import Mathlib

/-
Verification of `get_instance_details.py`: a tool that enumerates EC2 instance
types for requested families, enriches each with hardware metadata and pricing
(spot per availability zone, on-demand per region), and serializes the records.

Shallow embedding conventions:
* The AWS CLI is an external collaborator; every function that performs a
  network call is embedded as a function of the (already parsed) response.
  A call that fails (`subprocess.CalledProcessError`) or whose output does not
  parse (`json.JSONDecodeError`) is represented by `Except.error`.
* Prices travel as decimal strings and are converted with Python `float`; the
  arithmetic the source performs on them (comparison, minimum) is embedded over
  `ℚ`, which has the same order structure on the finite decimal values involved.
* Python dicts keep insertion order and `d[k] = v` overwrites in place; the
  `prices_by_az` dict is embedded as an association list with an
  update-in-place-or-append `insertAZ`.
* Python truthiness on a price is `≠ 0` for a present float and false for
  `None`; on a list it is non-emptiness.
-/

/-! ## Data model -/

/-- One element of the `SpotPriceHistory` array returned by
`describe-spot-price-history`.  `price_info.get("AvailabilityZone")` yields
`None` when the key is absent, hence `Option String`; `SpotPrice` is read with
default `0` and passed through `float`. -/
structure SpotEntry where
  availabilityZone : Option String
  spotPrice : ℚ
  deriving Repr, DecidableEq

/-- The per-zone value stored in `prices_by_az`:
`{"price": ..., "available": True}`. -/
structure SpotInfo where
  price : ℚ
  available : Bool
  deriving Repr, DecidableEq

/-- The fields of one element of the `InstanceTypes` array of
`describe-instance-types` that `get_instance_details` reads.  Each `Option`
mirrors a `dict.get` that may miss; `supportedArchitectures` is `none` when
either `ProcessorInfo` or its `SupportedArchitectures` key is absent. -/
structure InstanceInfo where
  supportedArchitectures : Option (List String)
  supportedPlatforms : Option (List String)
  hypervisorType : Option String
  defaultVCpus : Option Nat
  sizeInMiB : Option Nat
  maximumNetworkInterfaces : Option Nat
  deriving Repr, DecidableEq

/-- The `resources` dict assembled by `get_instance_details`.  The source
renders `memory` as the Python `float` repr of `SizeInMiB / 1024` followed by
`"Gi"`; the numeric content of that string is kept here as a rational (the
division by 1024 is exact in both models). -/
structure Resources where
  cpu : String
  memoryGiB : ℚ
  ephemeralStorage : String
  pods : String
  deriving Repr, DecidableEq

/-- The dict returned by `get_instance_details` on success. -/
structure InstanceDetails where
  architecture : String
  operatingSystems : List String
  resources : Resources
  deriving Repr, DecidableEq

/-- One element of a `Requirements` array (`key` / `operator` / `values`). -/
structure Requirement where
  key : String
  op : String
  values : List String
  deriving Repr, DecidableEq

/-- One element of the `offerings` array built by `process_instance_type`. -/
structure Offering where
  Price : ℚ
  Available : Bool
  Requirements : List Requirement
  deriving Repr, DecidableEq

/-- The record returned by `process_instance_type` on success. -/
structure InstanceRecord where
  name : String
  offerings : List Offering
  architecture : String
  operatingSystems : List String
  resources : Resources
  deriving Repr, DecidableEq

/-! ## `get_instance_details` -/

/-- The read `instance_info.get("ProcessorInfo", {}).get("SupportedArchitectures", ["x86_64"])`. -/
def archListOrDefault (ii : InstanceInfo) : List String :=
  ii.supportedArchitectures.getD ["x86_64"]

/-- Embedding of `get_instance_details`, as a function of the parsed
`InstanceTypes` array of the response.  `none` on an empty array (the
"not found" skip).  An empty architecture list makes the source raise
`IndexError` at the `[0]` subscript, which the fan-out coordinator catches and
skips; that path is also rendered as `none` (the observable outcome — the
instance type is omitted — is the same). -/
def get_instance_details (instanceTypes : List InstanceInfo) : Option InstanceDetails :=
  match instanceTypes with
  | [] => none
  | ii :: _ =>
    match archListOrDefault ii with
    | [] => none
    | arch0 :: _ =>
      some
        { architecture := if arch0 = "x86_64" then "amd64" else arch0
          operatingSystems :=
            match ii.supportedPlatforms with
            | some (p :: ps) => (p :: ps).map String.toLower
            | _ =>
              -- absent key and empty list are both falsy in the source
              if ii.hypervisorType ≠ some "nitro"
                  ∨ "windows" ∈ ii.supportedArchitectures.getD []
              then ["linux", "windows"] else ["linux"]
          resources :=
            { cpu := toString (ii.defaultVCpus.getD 0)
              memoryGiB := (ii.sizeInMiB.getD 0 : ℚ) / 1024
              ephemeralStorage := "20Gi"
              pods := toString (ii.maximumNetworkInterfaces.getD 8 * 10) } }

/-! ## `get_spot_prices` -/

/-- Lookup in the `prices_by_az` association list (Python `az in d` / `d[az]`). -/
def lookupAZ (m : List (Option String × SpotInfo)) (az : Option String) : Option SpotInfo :=
  (m.find? (fun p => decide (p.1 = az))).map Prod.snd

/-- Python dict assignment `d[az] = v`: overwrite in place if the key exists,
otherwise append. -/
def insertAZ (m : List (Option String × SpotInfo)) (az : Option String) (v : SpotInfo) :
    List (Option String × SpotInfo) :=
  match m with
  | [] => [(az, v)]
  | (k, w) :: rest => if k = az then (az, v) :: rest else (k, w) :: insertAZ rest az v

/-- The body of the loop over `SpotPriceHistory`: keep the lowest price seen
per availability zone (`if az not in prices_by_az or price < ...`), marking
`available = True` whenever a price exists. -/
def spotPricesStep (m : List (Option String × SpotInfo)) (e : SpotEntry) :
    List (Option String × SpotInfo) :=
  match lookupAZ m e.availabilityZone with
  | none => insertAZ m e.availabilityZone ⟨e.spotPrice, true⟩
  | some info =>
    if e.spotPrice < info.price then insertAZ m e.availabilityZone ⟨e.spotPrice, true⟩ else m

/-- Embedding of `get_spot_prices` as a function of the spot-price query
outcome: a failed or unparsable query (`Except.error`) degrades to the empty
map `{}`; otherwise the `SpotPriceHistory` entries are folded in order. -/
def get_spot_prices (resp : Except String (List SpotEntry)) :
    List (Option String × SpotInfo) :=
  match resp with
  | .error _ => []
  | .ok hist => hist.foldl spotPricesStep []

/-! ## `get_on_demand_price` -/

/-- One `pricePerUnit` dimension: `usd` is the parsed `USD` value, `none` when the
key is absent (the source then substitutes `0` via `.get("USD", 0)`). -/
structure PriceDimension where
  usd : Option ℚ
  deriving Repr, DecidableEq

/-- One `OnDemand` term: its `priceDimensions` values in dict order. -/
structure OnDemandTerm where
  priceDimensions : List PriceDimension
  deriving Repr, DecidableEq

/-- One element of `PriceList` (a JSON string): either it fails `json.loads`
(or raises `KeyError` during extraction — both continue the loop), or it
parses to a product whose `terms.OnDemand` values are listed in dict order. -/
inductive PriceProduct where
  | unparsable
  | parsed (onDemandTerms : List OnDemandTerm)
  deriving Repr, DecidableEq

/-- First price dimension across the terms of one product, in iteration order. -/
def firstPriceDimension : List OnDemandTerm → Option PriceDimension
  | [] => none
  | t :: ts =>
    match t.priceDimensions with
    | [] => firstPriceDimension ts
    | d :: _ => some d

/-- The extraction loop of `get_on_demand_price`: the first price dimension of
the first usable product returns immediately; `price` is only ever assigned
directly before a `return`, so the trailing `return price` returns `None`. -/
def extractPrice : List PriceProduct → Option ℚ
  | [] => none
  | .unparsable :: rest => extractPrice rest
  | .parsed terms :: rest =>
    match firstPriceDimension terms with
    | some d => some (d.usd.getD 0)
    | none => extractPrice rest

/-- Embedding of `get_on_demand_price` as a function of the pricing query
outcome: `None` on a failed or unparsable call, otherwise the first extracted
USD price (which is `0` when the dimension lacks a `USD` key). -/
def get_on_demand_price (resp : Except String (List PriceProduct)) : Option ℚ :=
  match resp with
  | .error _ => none
  | .ok prods => extractPrice prods

/-! ## Offering assembly (`process_instance_type`) -/

/-- The `Requirements` array of a spot offering for zone `az`. -/
def spotRequirements (az : String) : List Requirement :=
  [⟨"karpenter.sh/capacity-type", "In", ["spot"]⟩,
   ⟨"topology.kubernetes.io/zone", "In", [az]⟩]

/-- The `Requirements` array of an on-demand offering for zone `az`. -/
def onDemandRequirements (az : String) : List Requirement :=
  [⟨"karpenter.sh/capacity-type", "In", ["on-demand"]⟩,
   ⟨"topology.kubernetes.io/zone", "In", [az]⟩]

/-- One iteration of the spot loop: `spot_prices.get(az, {"price": None,
"available": False})` followed by `if spot_info["price"]:`.  The default has
price `None` (falsy) and a stored price of `0.0` is falsy as well, so an
offering is appended exactly for a present, nonzero price. -/
def spotOfferingForAZ (spot_prices : List (Option String × SpotInfo)) (az : String) :
    Option Offering :=
  match lookupAZ spot_prices (some az) with
  | none => none
  | some info =>
    if info.price = 0 then none
    else some ⟨info.price, info.available, spotRequirements az⟩

/-- The on-demand loop of `process_instance_type`: `if on_demand_price:` —
`None` and `0.0` are both falsy — then one offering per zone of `all_azs`,
all with the same price and `Available: True`. -/
def odOfferings (all_azs : List String) (on_demand_price : Option ℚ) : List Offering :=
  match on_demand_price with
  | none => []
  | some p =>
    if p = 0 then []
    else all_azs.map (fun az => ⟨p, true, onDemandRequirements az⟩)

/-- The `offerings` array assembled by `process_instance_type`: the spot loop
over `all_azs` followed by the on-demand loop. -/
def buildOfferings (all_azs : List String) (spot_prices : List (Option String × SpotInfo))
    (on_demand_price : Option ℚ) : List Offering :=
  all_azs.filterMap (spotOfferingForAZ spot_prices) ++ odOfferings all_azs on_demand_price

/-- Embedding of `process_instance_type`, as a function of the three query
outcomes for this instance type (hardware details, spot history, pricing). -/
def process_instance_type (instance_type : String) (all_azs : List String)
    (detailsResp : List InstanceInfo) (spotResp : Except String (List SpotEntry))
    (pricingResp : Except String (List PriceProduct)) : Option InstanceRecord :=
  match get_instance_details detailsResp with
  | none => none
  | some d =>
    some
      { name := instance_type
        offerings := buildOfferings all_azs (get_spot_prices spotResp)
                       (get_on_demand_price pricingResp)
        architecture := d.architecture
        operatingSystems := d.operatingSystems
        resources := d.resources }

/-! ## Family resolution and `main` -/

/-- Does the list start with a decimal digit? -/
def headIsDigit : List Char → Bool
  | d :: _ => d.isDigit
  | [] => false

/-- Behaviour of the substitution in `main` (deleting the regex match of
`\.\d+.*$`) on a newline-free token: delete from the
first `.` that is immediately followed by a digit (the `.*$` tail then matches
to the end of the string). -/
def stripAux : List Char → List Char
  | [] => []
  | c :: rest =>
    if c = '.' ∧ headIsDigit rest then [] else c :: stripAux rest

/-- The size-suffix strip applied to each family argument in `main`. -/
def stripSizeSuffix (s : String) : String :=
  ⟨stripAux s.data⟩

/-- The `--filters` value `get_instance_types_for_family` builds. -/
def familyFilter (family : String) : String :=
  "Name=instance-type,Values=" ++ family ++ ".*"

/-- The per-family resolution in `main`: strip the size suffix, then query
`describe-instance-types` with the family filter and read off the
`InstanceType` names.  The query is abstracted as an oracle from the filter
string to the resulting name list. -/
def resolveToken (oracle : String → List String) (tok : String) : List String :=
  oracle (familyFilter (stripSizeSuffix tok))

/-- Outcome of one `process_instance_type` future: a value (possibly `None`),
or an uncaught exception (`future.result()` raising). -/
inductive EnrichOutcome where
  | ok (r : Option InstanceRecord)
  | err (msg : String)
  deriving Repr, DecidableEq

/-- The collection loop of `main`: futures are consumed in completion order
(`order`), an exception is logged and contributes nothing, and a `None`
result is dropped by `if result:`. -/
def collectResults (order : List String) (outcome : String → EnrichOutcome) :
    List InstanceRecord :=
  order.filterMap (fun it =>
    match outcome it with
    | .ok (some r) => some r
    | _ => none)

/-- Observable outcome of `main`: the process exit code and the contents
written to the output file (`none` when the run exits before writing). -/
structure MainResult where
  exitCode : Nat
  written : Option (List InstanceRecord)
  deriving Repr, DecidableEq

/-- Embedding of `main` after zone listing: resolve every family token,
`sys.exit(1)` before any write when the aggregate list is empty, otherwise
collect the enrichment results in completion order and write them. -/
def mainRun (families : List String) (oracle : String → List String)
    (outcome : String → EnrichOutcome) (order : List String) : MainResult :=
  let allTypes := (families.map (resolveToken oracle)).flatten
  if allTypes.isEmpty then ⟨1, none⟩
  else ⟨0, some (collectResults order outcome)⟩

/-! ## Derived notions used by the claims -/

/-- The spot prices the query returned for zone `z` (entries whose
`AvailabilityZone` equals `z`), in order. -/
def zonePrices (hist : List SpotEntry) (z : String) : List ℚ :=
  (hist.filter (fun e => decide (e.availabilityZone = some z))).map SpotEntry.spotPrice

/-- Minimum of a list of rationals (`none` on the empty list). -/
def listMin : List ℚ → Option ℚ
  | [] => none
  | p :: ps => some (ps.foldl min p)

/-- Offering `o` is a spot offering for zone `z`: its requirements are exactly the
spot-capacity/zone pair for `z`. -/
def isSpotOfferingFor (o : Offering) (z : String) : Prop :=
  o.Requirements = spotRequirements z

instance (o : Offering) (z : String) : Decidable (isSpotOfferingFor o z) := by
  unfold isSpotOfferingFor; infer_instance

/-- Offering `o` is an on-demand offering for zone `z`. -/
def isOnDemandOfferingFor (o : Offering) (z : String) : Prop :=
  o.Requirements = onDemandRequirements z

instance (o : Offering) (z : String) : Decidable (isOnDemandOfferingFor o z) := by
  unfold isOnDemandOfferingFor; infer_instance

/-- What one fold step of the spot loop does to the value stored under a fixed
zone key (proof helper). -/
def minStep : Option SpotInfo → ℚ → Option SpotInfo
  | none, p => some ⟨p, true⟩
  | some i, p => if p < i.price then some ⟨p, true⟩ else some i

/-! ## Concrete data used by witnesses and counterexamples -/

/-- Metadata of a 4-vCPU, 16 GiB, 4-interface nitro x86 instance. -/
def iiSample : InstanceInfo :=
  { supportedArchitectures := some ["x86_64"], supportedPlatforms := none,
    hypervisorType := some "nitro", defaultVCpus := some 4,
    sizeInMiB := some 16384, maximumNetworkInterfaces := some 4 }

/-- A well-formed `describe-instance-types` response for `iiSample`. -/
def sampleDets : List InstanceInfo :=
  [iiSample]

/-- The details `get_instance_details` derives from `sampleDets`. -/
def sampleDetails : InstanceDetails :=
  ⟨"amd64", ["linux"], ⟨"4", (16384 : ℚ) / 1024, "20Gi", "40"⟩⟩

/-- Two spot-price entries for zone `zA`, minimum `2`. -/
def sampleHist : List SpotEntry :=
  [⟨some "zA", 3⟩, ⟨some "zA", 2⟩]

/-- The record produced for `sampleDets` and `sampleHist` over the single
zone `zA` with no on-demand price. -/
def sampleSpotRec : InstanceRecord :=
  ⟨"m5.large", [⟨2, true, spotRequirements "zA"⟩], "amd64", ["linux"],
    ⟨"4", (16384 : ℚ) / 1024, "20Gi", "40"⟩⟩

/-- A pricing response whose first product carries a USD price of `3`. -/
def samplePricing : Except String (List PriceProduct) :=
  .ok [.parsed [⟨[⟨some 3⟩]⟩]]

/-- The record produced for `sampleDets` with no spot history and the
`samplePricing` on-demand price over the single zone `zA`. -/
def sampleOdRec : InstanceRecord :=
  ⟨"m5.large", [⟨3, true, onDemandRequirements "zA"⟩], "amd64", ["linux"],
    ⟨"4", (16384 : ℚ) / 1024, "20Gi", "40"⟩⟩

/-- A pricing response whose first price dimension lacks a `USD` key: the
source extracts `float(0)` from it. -/
def zeroPricing : Except String (List PriceProduct) :=
  .ok [.parsed [⟨[⟨none⟩]⟩]]

/-- A failed spot-price query. -/
def failedSpot : Except String (List SpotEntry) :=
  .error "spot query failed"

/-- A one-instance batch whose spot-price query failed but whose hardware
lookup succeeded. -/
def spotFailOutcome : String → EnrichOutcome :=
  fun s => .ok (process_instance_type s ["zA"] sampleDets failedSpot (Except.ok []))

/-- A two-instance batch in which the enrichment of `c5.large` raises and the
other instance enriches normally. -/
def mixedOutcome : String → EnrichOutcome :=
  fun s =>
    if s = "c5.large" then .err "boom"
    else .ok (some ⟨s, [], "amd64", ["linux"], ⟨"2", 4, "20Gi", "80"⟩⟩)

/-! ## Supporting lemmas: the `prices_by_az` fold -/

lemma lookupAZ_nil (az : Option String) : lookupAZ [] az = none := rfl

lemma lookupAZ_cons (k : Option String) (w : SpotInfo) (m : List (Option String × SpotInfo))
    (az : Option String) :
    lookupAZ ((k, w) :: m) az = if k = az then some w else lookupAZ m az := by
  by_cases h : k = az <;> simp [lookupAZ, List.find?_cons, h]

lemma lookupAZ_insertAZ (m : List (Option String × SpotInfo)) (k : Option String)
    (v : SpotInfo) (az : Option String) :
    lookupAZ (insertAZ m k v) az = if k = az then some v else lookupAZ m az := by
  induction m with
  | nil => simp [insertAZ, lookupAZ_cons, lookupAZ_nil]
  | cons hd tl ih =>
    obtain ⟨k', w⟩ := hd
    by_cases hk : k' = k
    · subst hk
      by_cases haz : k' = az <;> simp [insertAZ, lookupAZ_cons, haz]
    · simp only [insertAZ, if_neg hk, lookupAZ_cons, ih]
      by_cases haz : k' = az
      · subst haz
        have : ¬ k = k' := fun h => hk h.symm
        simp [this]
      · simp [haz]

lemma lookupAZ_spotPricesStep (m : List (Option String × SpotInfo)) (e : SpotEntry)
    (az : Option String) :
    lookupAZ (spotPricesStep m e) az =
      if e.availabilityZone = az then minStep (lookupAZ m az) e.spotPrice
      else lookupAZ m az := by
  cases h : lookupAZ m e.availabilityZone with
  | none =>
    have hred : spotPricesStep m e = insertAZ m e.availabilityZone ⟨e.spotPrice, true⟩ := by
      unfold spotPricesStep; rw [h]
    rw [hred, lookupAZ_insertAZ]
    by_cases haz : e.availabilityZone = az
    · subst haz; simp [h, minStep]
    · simp [haz]
  | some info =>
    have hred : spotPricesStep m e =
        if e.spotPrice < info.price then insertAZ m e.availabilityZone ⟨e.spotPrice, true⟩
        else m := by
      unfold spotPricesStep; rw [h]
    rw [hred]
    by_cases hlt : e.spotPrice < info.price
    · rw [if_pos hlt, lookupAZ_insertAZ]
      by_cases haz : e.availabilityZone = az
      · subst haz; simp [h, minStep, hlt]
      · simp [haz]
    · rw [if_neg hlt]
      by_cases haz : e.availabilityZone = az
      · subst haz; simp [h, minStep, hlt]
      · simp [haz]

lemma lookupAZ_foldl (az : Option String) :
    ∀ (hist : List SpotEntry) (m : List (Option String × SpotInfo)),
      lookupAZ (hist.foldl spotPricesStep m) az =
        ((hist.filter (fun e => decide (e.availabilityZone = az))).map
            SpotEntry.spotPrice).foldl minStep (lookupAZ m az) := by
  intro hist
  induction hist with
  | nil => intro m; rfl
  | cons e t ih =>
    intro m
    rw [List.foldl_cons, ih]
    by_cases haz : e.availabilityZone = az
    · rw [List.filter_cons_of_pos (by simpa using haz), List.map_cons, List.foldl_cons,
        lookupAZ_spotPricesStep, if_pos haz]
    · rw [List.filter_cons_of_neg (by simpa using haz), lookupAZ_spotPricesStep, if_neg haz]

lemma foldl_minStep_some :
    ∀ (ps : List ℚ) (j : ℚ), ps.foldl minStep (some ⟨j, true⟩) = some ⟨ps.foldl min j, true⟩ := by
  intro ps
  induction ps with
  | nil => intro j; rfl
  | cons p t ih =>
    intro j
    rw [List.foldl_cons, List.foldl_cons]
    by_cases h : p < j
    · have hs : minStep (some ⟨j, true⟩) p = some ⟨p, true⟩ := by simp [minStep, h]
      have hm : min j p = p := min_eq_right h.le
      rw [hs, ih, hm]
    · have hs : minStep (some ⟨j, true⟩) p = some ⟨j, true⟩ := by simp [minStep, h]
      have hm : min j p = j := min_eq_left (le_of_not_lt h)
      rw [hs, ih, hm]

lemma foldl_minStep_none (ps : List ℚ) :
    ps.foldl minStep none = (listMin ps).map (fun q => SpotInfo.mk q true) := by
  cases ps with
  | nil => rfl
  | cons p t =>
    rw [List.foldl_cons]
    have hs : minStep none p = some ⟨p, true⟩ := rfl
    rw [hs, foldl_minStep_some]
    rfl

/-- The value `get_spot_prices` retains for zone `z` is exactly the minimum of
the prices the query returned for `z`, marked available. -/
lemma lookup_spot_prices (hist : List SpotEntry) (z : String) :
    lookupAZ (get_spot_prices (Except.ok hist)) (some z) =
      (listMin (zonePrices hist z)).map (fun q => SpotInfo.mk q true) := by
  unfold get_spot_prices zonePrices
  rw [lookupAZ_foldl (some z) hist [], lookupAZ_nil, foldl_minStep_none]

/-! ## Supporting lemmas: offering filters -/

lemma spotRequirements_inj {a b : String} (h : spotRequirements a = spotRequirements b) :
    a = b := by
  simpa [spotRequirements] using h

lemma onDemandRequirements_inj {a b : String}
    (h : onDemandRequirements a = onDemandRequirements b) : a = b := by
  simpa [onDemandRequirements] using h

lemma spotRequirements_ne_onDemand (a b : String) :
    spotRequirements a ≠ onDemandRequirements b := by
  intro h
  simp [spotRequirements, onDemandRequirements] at h

lemma spotOfferingForAZ_requirements {sp : List (Option String × SpotInfo)} {az : String}
    {o : Offering} (h : spotOfferingForAZ sp az = some o) :
    o.Requirements = spotRequirements az := by
  cases hl : lookupAZ sp (some az) with
  | none =>
    have hred : spotOfferingForAZ sp az = none := by
      unfold spotOfferingForAZ; rw [hl]
    rw [hred] at h
    exact absurd h (by simp)
  | some info =>
    have hred : spotOfferingForAZ sp az =
        if info.price = 0 then none
        else some ⟨info.price, info.available, spotRequirements az⟩ := by
      unfold spotOfferingForAZ; rw [hl]
    rw [hred] at h
    by_cases hz : info.price = 0
    · rw [if_pos hz] at h; exact absurd h (by simp)
    · rw [if_neg hz] at h
      cases h
      rfl

lemma filter_spot_filterMap_of_not_mem (sp : List (Option String × SpotInfo)) (z : String) :
    ∀ azs : List String, z ∉ azs →
      ((azs.filterMap (spotOfferingForAZ sp)).filter
          (fun o => decide (isSpotOfferingFor o z))) = [] := by
  intro azs
  induction azs with
  | nil => intro _; rfl
  | cons a rest ih =>
    intro hz
    have hza : ¬ z = a := fun h => hz (h ▸ List.mem_cons_self a rest)
    have hzr : z ∉ rest := fun h => hz (List.mem_cons_of_mem a h)
    rw [List.filterMap_cons]
    cases hsp : spotOfferingForAZ sp a with
    | none => exact ih hzr
    | some o =>
      have hreq : o.Requirements = spotRequirements a := spotOfferingForAZ_requirements hsp
      have hno : ¬ isSpotOfferingFor o z := by
        intro hiso
        exact hza (spotRequirements_inj (hreq ▸ hiso)).symm
      rw [List.filter_cons_of_neg (by simpa using hno)]
      exact ih hzr

lemma filter_spot_filterMap (sp : List (Option String × SpotInfo)) (z : String) :
    ∀ azs : List String, z ∈ azs → azs.Nodup →
      ((azs.filterMap (spotOfferingForAZ sp)).filter
          (fun o => decide (isSpotOfferingFor o z))) = (spotOfferingForAZ sp z).toList := by
  intro azs
  induction azs with
  | nil => intro h; exact absurd h (List.not_mem_nil z)
  | cons a rest ih =>
    intro hz hnd
    rcases List.mem_cons.mp hz with h | h
    · subst h
      have hzrest : z ∉ rest := (List.nodup_cons.mp hnd).1
      rw [List.filterMap_cons]
      cases hsp : spotOfferingForAZ sp z with
      | none =>
        rw [filter_spot_filterMap_of_not_mem sp z rest hzrest]
        rfl
      | some o =>
        have hreq : o.Requirements = spotRequirements z := spotOfferingForAZ_requirements hsp
        rw [List.filter_cons_of_pos (by simpa [isSpotOfferingFor] using hreq),
          filter_spot_filterMap_of_not_mem sp z rest hzrest]
        rfl
    · have hna : a ∉ rest := (List.nodup_cons.mp hnd).1
      have hza : ¬ z = a := fun hh => hna (hh ▸ h)
      rw [List.filterMap_cons]
      cases hsp : spotOfferingForAZ sp a with
      | none => exact ih h (List.nodup_cons.mp hnd).2
      | some o =>
        have hreq : o.Requirements = spotRequirements a := spotOfferingForAZ_requirements hsp
        have hno : ¬ isSpotOfferingFor o z := by
          intro hiso
          exact hza (spotRequirements_inj (hreq ▸ hiso)).symm
        rw [List.filter_cons_of_neg (by simpa using hno)]
        exact ih h (List.nodup_cons.mp hnd).2

lemma filter_spot_odPart (azs : List String) (p : ℚ) (z : String) :
    ((azs.map (fun az => Offering.mk p true (onDemandRequirements az))).filter
        (fun o => decide (isSpotOfferingFor o z))) = [] := by
  induction azs with
  | nil => rfl
  | cons a rest ih =>
    rw [List.map_cons]
    have hno : ¬ isSpotOfferingFor (Offering.mk p true (onDemandRequirements a)) z := by
      intro hiso
      exact spotRequirements_ne_onDemand z a (id hiso.symm)
    rw [List.filter_cons_of_neg (by simpa using hno)]
    exact ih

lemma filter_od_spotPart (sp : List (Option String × SpotInfo)) (z : String) :
    ∀ azs : List String,
      ((azs.filterMap (spotOfferingForAZ sp)).filter
          (fun o => decide (isOnDemandOfferingFor o z))) = [] := by
  intro azs
  induction azs with
  | nil => rfl
  | cons a rest ih =>
    rw [List.filterMap_cons]
    cases hsp : spotOfferingForAZ sp a with
    | none => exact ih
    | some o =>
      have hreq : o.Requirements = spotRequirements a := spotOfferingForAZ_requirements hsp
      have hno : ¬ isOnDemandOfferingFor o z := by
        intro hiso
        exact spotRequirements_ne_onDemand a z (hreq ▸ hiso)
      rw [List.filter_cons_of_neg (by simpa using hno)]
      exact ih

lemma filter_od_map_of_not_mem (p : ℚ) (z : String) :
    ∀ azs : List String, z ∉ azs →
      ((azs.map (fun az => Offering.mk p true (onDemandRequirements az))).filter
          (fun o => decide (isOnDemandOfferingFor o z))) = [] := by
  intro azs
  induction azs with
  | nil => intro _; rfl
  | cons a rest ih =>
    intro hz
    have hza : ¬ z = a := fun h => hz (h ▸ List.mem_cons_self a rest)
    have hzr : z ∉ rest := fun h => hz (List.mem_cons_of_mem a h)
    rw [List.map_cons]
    have hno : ¬ isOnDemandOfferingFor (Offering.mk p true (onDemandRequirements a)) z := by
      intro hiso
      exact hza (onDemandRequirements_inj hiso).symm
    rw [List.filter_cons_of_neg (by simpa using hno)]
    exact ih hzr

lemma filter_od_map (p : ℚ) (z : String) :
    ∀ azs : List String, z ∈ azs → azs.Nodup →
      ((azs.map (fun az => Offering.mk p true (onDemandRequirements az))).filter
          (fun o => decide (isOnDemandOfferingFor o z))) =
        [Offering.mk p true (onDemandRequirements z)] := by
  intro azs
  induction azs with
  | nil => intro h; exact absurd h (List.not_mem_nil z)
  | cons a rest ih =>
    intro hz hnd
    rcases List.mem_cons.mp hz with h | h
    · subst h
      have hzrest : z ∉ rest := (List.nodup_cons.mp hnd).1
      rw [List.map_cons,
        List.filter_cons_of_pos (by simp [isOnDemandOfferingFor]),
        filter_od_map_of_not_mem p z rest hzrest]
    · have hna : a ∉ rest := (List.nodup_cons.mp hnd).1
      have hza : ¬ z = a := fun hh => hna (hh ▸ h)
      rw [List.map_cons]
      have hno : ¬ isOnDemandOfferingFor (Offering.mk p true (onDemandRequirements a)) z := by
        intro hiso
        exact hza (onDemandRequirements_inj hiso).symm
      rw [List.filter_cons_of_neg (by simpa using hno)]
      exact ih h (List.nodup_cons.mp hnd).2

/-- The spot offerings of the assembled list, for one zone of the zone list:
whatever the spot loop produced at that zone. -/
lemma buildOfferings_spot_filter (azs : List String) (sp : List (Option String × SpotInfo))
    (od : Option ℚ) (z : String) (hz : z ∈ azs) (hnd : azs.Nodup) :
    ((buildOfferings azs sp od).filter (fun o => decide (isSpotOfferingFor o z))) =
      (spotOfferingForAZ sp z).toList := by
  unfold buildOfferings
  rw [List.filter_append, filter_spot_filterMap sp z azs hz hnd]
  cases od with
  | none => simp [odOfferings]
  | some p =>
    by_cases hp : p = 0
    · simp [odOfferings, hp]
    · rw [odOfferings, if_neg hp, filter_spot_odPart]
      simp

/-- No on-demand offerings at all when the price lookup found nothing. -/
lemma buildOfferings_od_filter_none (azs : List String) (sp : List (Option String × SpotInfo))
    (z : String) :
    ((buildOfferings azs sp none).filter (fun o => decide (isOnDemandOfferingFor o z))) = [] := by
  unfold buildOfferings
  rw [List.filter_append, filter_od_spotPart sp z azs]
  rfl

/-- No on-demand offerings at all when the extracted price is `0` (falsy). -/
lemma buildOfferings_od_filter_zero (azs : List String) (sp : List (Option String × SpotInfo))
    (z : String) :
    ((buildOfferings azs sp (some 0)).filter (fun o => decide (isOnDemandOfferingFor o z))) = [] := by
  unfold buildOfferings
  rw [List.filter_append, filter_od_spotPart sp z azs, odOfferings, if_pos rfl]
  rfl

/-- Exactly one on-demand offering for each zone of the zone list when a
nonzero price was extracted. -/
lemma buildOfferings_od_filter_some (azs : List String) (sp : List (Option String × SpotInfo))
    (p : ℚ) (z : String) (hp : p ≠ 0) (hz : z ∈ azs) (hnd : azs.Nodup) :
    ((buildOfferings azs sp (some p)).filter (fun o => decide (isOnDemandOfferingFor o z))) =
      [Offering.mk p true (onDemandRequirements z)] := by
  unfold buildOfferings
  rw [List.filter_append, filter_od_spotPart sp z azs, odOfferings, if_neg hp,
    filter_od_map p z azs hz hnd]
  rfl

/-- Shape of the spot loop body once the stored info for the zone is known. -/
lemma spotOfferingForAZ_eq_some {sp : List (Option String × SpotInfo)} {az : String}
    {info : SpotInfo} (h : lookupAZ sp (some az) = some info) :
    spotOfferingForAZ sp az =
      if info.price = 0 then none
      else some ⟨info.price, info.available, spotRequirements az⟩ := by
  unfold spotOfferingForAZ
  rw [h]

/-- No spot offering for a zone with no stored price. -/
lemma spotOfferingForAZ_eq_none {sp : List (Option String × SpotInfo)} {az : String}
    (h : lookupAZ sp (some az) = none) :
    spotOfferingForAZ sp az = none := by
  unfold spotOfferingForAZ
  rw [h]

/-- Every member of the on-demand part is an on-demand offering for some zone
of the zone list, priced at the (nonzero) extracted price. -/
lemma odOfferings_mem {azs : List String} {od : Option ℚ} {o : Offering}
    (h : o ∈ odOfferings azs od) :
    ∃ p az, od = some p ∧ p ≠ 0 ∧ az ∈ azs ∧
      o = Offering.mk p true (onDemandRequirements az) := by
  cases od with
  | none => exact absurd h (by simp [odOfferings])
  | some p =>
    by_cases hp : p = 0
    · rw [odOfferings, if_pos hp] at h
      exact absurd h (by simp)
    · rw [odOfferings, if_neg hp] at h
      obtain ⟨az, haz, ho⟩ := List.mem_map.mp h
      exact ⟨p, az, rfl, hp, haz, ho.symm⟩

/-- A successful `process_instance_type` assembles its offerings from the two
pricing queries. -/
lemma process_offerings {it : String} {azs : List String} {dets : List InstanceInfo}
    {sR : Except String (List SpotEntry)} {pR : Except String (List PriceProduct)}
    {rec : InstanceRecord}
    (h : process_instance_type it azs dets sR pR = some rec) :
    rec.offerings = buildOfferings azs (get_spot_prices sR) (get_on_demand_price pR) := by
  unfold process_instance_type at h
  cases hd : get_instance_details dets with
  | none => rw [hd] at h; exact absurd h (by simp)
  | some d =>
    rw [hd] at h
    cases h
    rfl

/-! ## Supporting lemmas: hardware details and family stripping -/

/-- Closed form of `get_instance_details` on a non-empty response whose
architecture list is non-empty. -/
lemma get_instance_details_eq (ii : InstanceInfo) (rest : List InstanceInfo)
    (a : String) (as : List String) (harch : archListOrDefault ii = a :: as) :
    get_instance_details (ii :: rest) = some
      { architecture := if a = "x86_64" then "amd64" else a
        operatingSystems :=
          match ii.supportedPlatforms with
          | some (p :: ps) => (p :: ps).map String.toLower
          | _ =>
            if ii.hypervisorType ≠ some "nitro"
                ∨ "windows" ∈ ii.supportedArchitectures.getD []
            then ["linux", "windows"] else ["linux"]
        resources :=
          { cpu := toString (ii.defaultVCpus.getD 0)
            memoryGiB := (ii.sizeInMiB.getD 0 : ℚ) / 1024
            ephemeralStorage := "20Gi"
            pods := toString (ii.maximumNetworkInterfaces.getD 8 * 10) } } := by
  have h0 : get_instance_details (ii :: rest) =
      match archListOrDefault ii with
      | [] => none
      | arch0 :: _ =>
        some
          { architecture := if arch0 = "x86_64" then "amd64" else arch0
            operatingSystems :=
              match ii.supportedPlatforms with
              | some (p :: ps) => (p :: ps).map String.toLower
              | _ =>
                if ii.hypervisorType ≠ some "nitro"
                    ∨ "windows" ∈ ii.supportedArchitectures.getD []
                then ["linux", "windows"] else ["linux"]
            resources :=
              { cpu := toString (ii.defaultVCpus.getD 0)
                memoryGiB := (ii.sizeInMiB.getD 0 : ℚ) / 1024
                ephemeralStorage := "20Gi"
                pods := toString (ii.maximumNetworkInterfaces.getD 8 * 10) } } := rfl
  rw [h0, harch]

lemma stripAux_of_no_dot : ∀ l : List Char, '.' ∉ l → stripAux l = l := by
  intro l
  induction l with
  | nil => intro _; rfl
  | cons c rest ih =>
    intro h
    have hc : ¬ c = '.' := fun hh => h (by rw [← hh]; exact List.mem_cons_self c rest)
    rw [stripAux, if_neg (fun hcon => hc hcon.1),
      ih (fun hm => h (List.mem_cons_of_mem c hm))]

lemma stripAux_strip : ∀ bare : List Char, '.' ∉ bare → ∀ d : Char, d.isDigit = true →
    ∀ rest : List Char, stripAux (bare ++ '.' :: d :: rest) = bare := by
  intro bare
  induction bare with
  | nil =>
    intro _ d hd rest
    rw [List.nil_append, stripAux, if_pos ⟨rfl, by simp [headIsDigit, hd]⟩]
  | cons c t ih =>
    intro h d hd rest
    have hc : ¬ c = '.' := fun hh => h (by rw [← hh]; exact List.mem_cons_self c t)
    rw [List.cons_append, stripAux, if_neg (fun hcon => hc hcon.1),
      ih (fun hm => h (List.mem_cons_of_mem c hm)) d hd rest]

/-- An empty architecture list reaches the (raising) `[0]` subscript: no
record. -/
lemma get_instance_details_nil_arch (ii : InstanceInfo) (rest : List InstanceInfo)
    (harch : archListOrDefault ii = []) :
    get_instance_details (ii :: rest) = none := by
  have h0 : get_instance_details (ii :: rest) =
      match archListOrDefault ii with
      | [] => none
      | arch0 :: _ =>
        some
          { architecture := if arch0 = "x86_64" then "amd64" else arch0
            operatingSystems :=
              match ii.supportedPlatforms with
              | some (p :: ps) => (p :: ps).map String.toLower
              | _ =>
                if ii.hypervisorType ≠ some "nitro"
                    ∨ "windows" ∈ ii.supportedArchitectures.getD []
                then ["linux", "windows"] else ["linux"]
            resources :=
              { cpu := toString (ii.defaultVCpus.getD 0)
                memoryGiB := (ii.sizeInMiB.getD 0 : ℚ) / 1024
                ephemeralStorage := "20Gi"
                pods := toString (ii.maximumNetworkInterfaces.getD 8 * 10) } } := rfl
  rw [h0, harch]

/-! ## Claims -/

/-- C4: for every record built when the provider reports no explicit
supported-platforms list (absent key or empty list — both falsy in the
source), `operatingSystems` is `["linux"]` with `"windows"` appended exactly
when the hypervisor type is not `"nitro"` or the supported-architectures list
contains `"windows"`; when a non-empty platforms list is reported,
`operatingSystems` is that list lower-cased. -/
theorem operating_systems_heuristic (ii : InstanceInfo) (rest : List InstanceInfo)
    (d : InstanceDetails) (h : get_instance_details (ii :: rest) = some d) :
    ((ii.supportedPlatforms = none ∨ ii.supportedPlatforms = some []) →
      d.operatingSystems =
        "linux" :: (if ii.hypervisorType ≠ some "nitro"
            ∨ "windows" ∈ ii.supportedArchitectures.getD []
          then ["windows"] else [])) ∧
    (∀ p ps, ii.supportedPlatforms = some (p :: ps) →
      d.operatingSystems = (p :: ps).map String.toLower) := by
  cases harch : archListOrDefault ii with
  | nil =>
    rw [get_instance_details_nil_arch ii rest harch] at h
    exact absurd h (by simp)
  | cons a as =>
    rw [get_instance_details_eq ii rest a as harch] at h
    injection h with h
    subst h
    constructor
    · intro hns
      by_cases hc : ii.hypervisorType ≠ some "nitro"
          ∨ "windows" ∈ ii.supportedArchitectures.getD []
      · rcases hns with h1 | h1 <;> rw [h1] <;> simp [hc]
      · rcases hns with h1 | h1 <;> rw [h1] <;> simp [hc]
    · intro p ps hp
      rw [hp]

/-- C4 witness: `iiSample` reports no platform list, is nitro, and has no
`windows` architecture token, so the `operatingSystems` of its record is exactly
`["linux"]`. -/
theorem operating_systems_heuristic_witness :
    get_instance_details (iiSample :: []) = some sampleDetails ∧
    sampleDetails.operatingSystems = ["linux"] :=
  ⟨rfl, by
    simpa [iiSample] using
      (operating_systems_heuristic iiSample [] sampleDetails rfl).1 (Or.inl rfl)⟩

/-- C5: the first reported supported architecture `"x86_64"` is renamed to
`"amd64"`; any other first token passes through unchanged. -/
theorem architecture_normalization (ii : InstanceInfo) (rest : List InstanceInfo)
    (d : InstanceDetails) (a : String) (as : List String)
    (h : get_instance_details (ii :: rest) = some d)
    (ha : ii.supportedArchitectures = some (a :: as)) :
    (a = "x86_64" → d.architecture = "amd64") ∧
    (a ≠ "x86_64" → d.architecture = a) := by
  have harch : archListOrDefault ii = a :: as := by
    unfold archListOrDefault
    rw [ha]
    rfl
  rw [get_instance_details_eq ii rest a as harch] at h
  injection h with h
  subst h
  constructor
  · intro hx; simp [hx]
  · intro hx; simp [hx]

/-- C5 witness: `iiSample` reports `["x86_64"]` and the architecture of its record
is `"amd64"`. -/
theorem architecture_normalization_witness :
    iiSample.supportedArchitectures = some ("x86_64" :: []) ∧
    sampleDetails.architecture = "amd64" :=
  ⟨rfl, (architecture_normalization iiSample [] sampleDetails "x86_64" [] rfl rfl).1 rfl⟩

/-- C6: the `pods` field of the record is the decimal rendering of
`MaximumNetworkInterfaces * 10`, with the interface count defaulting to `8`:
4 interfaces give `"40"`, an absent count gives `"80"`. -/
theorem pods_approximation (ii : InstanceInfo) (rest : List InstanceInfo)
    (d : InstanceDetails) (h : get_instance_details (ii :: rest) = some d) :
    d.resources.pods = toString (ii.maximumNetworkInterfaces.getD 8 * 10) ∧
    (ii.maximumNetworkInterfaces = some 4 → d.resources.pods = "40") ∧
    (ii.maximumNetworkInterfaces = none → d.resources.pods = "80") := by
  cases harch : archListOrDefault ii with
  | nil =>
    rw [get_instance_details_nil_arch ii rest harch] at h
    exact absurd h (by simp)
  | cons a as =>
    rw [get_instance_details_eq ii rest a as harch] at h
    injection h with h
    subst h
    refine ⟨rfl, fun h4 => ?_, fun h8 => ?_⟩
    · rw [h4]; rfl
    · rw [h8]; rfl

/-- C6 witness: `iiSample` reports 4 interfaces and the `pods` of its record is
`"40"`. -/
theorem pods_approximation_witness :
    get_instance_details (iiSample :: []) = some sampleDetails ∧
    iiSample.maximumNetworkInterfaces = some 4 ∧
    sampleDetails.resources.pods = "40" :=
  ⟨rfl, rfl, (pods_approximation iiSample [] sampleDetails rfl).2.1 rfl⟩

/-- C7: a family token with a spurious size suffix — a `.` followed by digits
and anything further at the end — strips to the bare family token, so the
resolver builds the same `describe-instance-types` filter and resolves to the
same instance-type list as the bare token. -/
theorem family_suffix_strip (bare : List Char) (d : Char) (rest : List Char)
    (oracle : String → List String) (hnd : '.' ∉ bare) (hd : d.isDigit = true) :
    stripSizeSuffix ⟨bare ++ '.' :: d :: rest⟩ = ⟨bare⟩ ∧
    familyFilter (stripSizeSuffix ⟨bare ++ '.' :: d :: rest⟩) = familyFilter ⟨bare⟩ ∧
    resolveToken oracle ⟨bare ++ '.' :: d :: rest⟩ = resolveToken oracle ⟨bare⟩ := by
  have h1 : stripSizeSuffix ⟨bare ++ '.' :: d :: rest⟩ = ⟨bare⟩ := by
    show String.mk (stripAux (bare ++ '.' :: d :: rest)) = String.mk bare
    rw [stripAux_strip bare hnd d hd rest]
  have h2 : stripSizeSuffix ⟨bare⟩ = (⟨bare⟩ : String) := by
    show String.mk (stripAux bare) = String.mk bare
    rw [stripAux_of_no_dot bare hnd]
  refine ⟨h1, by rw [h1], ?_⟩
  unfold resolveToken
  rw [h1, h2]

/-- C7 witness: `"g6.2xlarge"` strips to `"g6"` and resolves like `"g6"`. -/
theorem family_suffix_strip_witness :
    ('.' ∉ "g6".data) ∧ ('2'.isDigit = true) ∧
    (stripSizeSuffix ⟨"g6".data ++ '.' :: '2' :: "xlarge".data⟩ = ⟨"g6".data⟩ ∧
     familyFilter (stripSizeSuffix ⟨"g6".data ++ '.' :: '2' :: "xlarge".data⟩) =
       familyFilter ⟨"g6".data⟩ ∧
     resolveToken (fun s => [s]) ⟨"g6".data ++ '.' :: '2' :: "xlarge".data⟩ =
       resolveToken (fun s => [s]) ⟨"g6".data⟩) :=
  ⟨by decide, by decide,
    family_suffix_strip "g6".data '2' "xlarge".data (fun s => [s]) (by decide) (by decide)⟩

/-- C8: when every requested family resolves to zero instance types, `main`
exits with a non-zero status before writing any output. -/
theorem empty_resolution_exit (families : List String) (oracle : String → List String)
    (outcome : String → EnrichOutcome) (order : List String)
    (h : ∀ f ∈ families, resolveToken oracle f = []) :
    (mainRun families oracle outcome order).exitCode ≠ 0 ∧
    (mainRun families oracle outcome order).written = none := by
  have hempty : ∀ fs : List String, (∀ f ∈ fs, resolveToken oracle f = []) →
      (fs.map (resolveToken oracle)).flatten = [] := by
    intro fs
    induction fs with
    | nil => intro _; rfl
    | cons g t ih =>
      intro hh
      rw [List.map_cons, List.flatten_cons, hh g (List.mem_cons_self g t), List.nil_append]
      exact ih (fun x hx => hh x (List.mem_cons_of_mem g hx))
  have he := hempty families h
  refine ⟨?_, ?_⟩ <;> simp [mainRun, he]

/-- C8 witness: one family, resolving to nothing. -/
theorem empty_resolution_exit_witness :
    (∀ f ∈ ["g6"], resolveToken (fun _ => []) f = []) ∧
    ((mainRun ["g6"] (fun _ => []) (fun _ => EnrichOutcome.err "unused") []).exitCode ≠ 0 ∧
     (mainRun ["g6"] (fun _ => []) (fun _ => EnrichOutcome.err "unused") []).written = none) :=
  ⟨fun _ _ => rfl,
    empty_resolution_exit ["g6"] (fun _ => []) (fun _ => EnrichOutcome.err "unused") []
      (fun _ _ => rfl)⟩

/-- C9: an instance type whose enrichment raises contributes nothing to the
collected results, and the successful record of every other instance type still
appears, whatever the completion order. -/
theorem worker_error_isolated (order : List String) (outcome : String → EnrichOutcome)
    (bad : String) (e : String)
    (hbad : outcome bad = .err e)
    (hname : ∀ s r, outcome s = .ok (some r) → r.name = s) :
    (∀ r ∈ collectResults order outcome, r.name ≠ bad) ∧
    (∀ s r, s ∈ order → outcome s = .ok (some r) → r ∈ collectResults order outcome) := by
  constructor
  · intro r hr
    obtain ⟨s, hs, hval⟩ := List.mem_filterMap.mp hr
    cases ho : outcome s with
    | ok orec =>
      cases orec with
      | none =>
        rw [ho] at hval
        exact absurd hval (by simp)
      | some r2 =>
        rw [ho] at hval
        have hrr : r2 = r := by simpa using hval
        subst hrr
        intro hcontra
        have hn : r2.name = s := hname s r2 ho
        rw [hn] at hcontra
        rw [hcontra] at ho
        rw [hbad] at ho
        exact absurd ho (by simp)
    | err m =>
      rw [ho] at hval
      exact absurd hval (by simp)
  · intro s r hs ho
    refine List.mem_filterMap.mpr ⟨s, hs, ?_⟩
    rw [ho]

/-- C9 witness: in the batch `["m5.large", "c5.large"]` where `c5.large`
raises, no collected record is named `c5.large` and the record of `m5.large` is
collected. -/
theorem worker_error_isolated_witness :
    mixedOutcome "c5.large" = .err "boom" ∧
    ((∀ r ∈ collectResults ["m5.large", "c5.large"] mixedOutcome, r.name ≠ "c5.large") ∧
     (∀ s r, s ∈ ["m5.large", "c5.large"] → mixedOutcome s = .ok (some r) →
        r ∈ collectResults ["m5.large", "c5.large"] mixedOutcome)) :=
  ⟨by decide,
    worker_error_isolated ["m5.large", "c5.large"] mixedOutcome "c5.large" "boom" (by decide)
      (by
        intro s r h
        by_cases hs : s = "c5.large"
        · simp only [mixedOutcome, if_pos hs] at h
          exact absurd h (by simp)
        · simp only [mixedOutcome, if_neg hs] at h
          cases h
          rfl)⟩

/-- When the spot loop produces nothing for zone `z`, the assembled offerings
contain no spot offering for `z` (no zone-list hypotheses needed). -/
lemma filter_spot_of_offering_none (azs : List String) (sp : List (Option String × SpotInfo))
    (od : Option ℚ) (z : String) (hz : spotOfferingForAZ sp z = none) :
    ((buildOfferings azs sp od).filter (fun o => decide (isSpotOfferingFor o z))) = [] := by
  rw [List.filter_eq_nil_iff]
  intro o ho
  simp only [decide_eq_true_eq]
  intro hiso
  unfold buildOfferings at ho
  rcases List.mem_append.mp ho with hsp2 | hod2
  · obtain ⟨az, haz, hval⟩ := List.mem_filterMap.mp hsp2
    have hreq := spotOfferingForAZ_requirements hval
    have haz2 : az = z := spotRequirements_inj (hreq.symm.trans hiso)
    subst haz2
    rw [hz] at hval
    exact absurd hval (by simp)
  · obtain ⟨p, az, hodp, hp0, haz, ho2⟩ := odOfferings_mem hod2
    rw [ho2] at hiso
    exact spotRequirements_ne_onDemand z az (id hiso.symm)

/-- C10: an offering is emitted only for a strictly truthy price.  A zone
whose retained minimum spot price is `0` gets no spot offering even though a
price record was stored for it, and an extracted on-demand price of `0`
produces no on-demand offerings for any zone. -/
theorem truthy_price_gate (azs : List String) (hist : List SpotEntry) (z : String)
    (info : SpotInfo) (pr : Except String (List PriceProduct)) :
    (lookupAZ (get_spot_prices (Except.ok hist)) (some z) = some info → info.price = 0 →
      ((buildOfferings azs (get_spot_prices (Except.ok hist))
          (get_on_demand_price pr)).filter (fun o => decide (isSpotOfferingFor o z))) = []) ∧
    (get_on_demand_price pr = some 0 →
      ∀ o ∈ buildOfferings azs (get_spot_prices (Except.ok hist)) (get_on_demand_price pr),
        ∀ z2, ¬ isOnDemandOfferingFor o z2) := by
  constructor
  · intro hl h0
    have hnone : spotOfferingForAZ (get_spot_prices (Except.ok hist)) z = none := by
      rw [spotOfferingForAZ_eq_some hl, if_pos h0]
    exact filter_spot_of_offering_none azs _ _ z hnone
  · intro hod o ho z2 hiso
    unfold buildOfferings at ho
    rcases List.mem_append.mp ho with hsp2 | hod2
    · obtain ⟨az, haz, hval⟩ := List.mem_filterMap.mp hsp2
      have hreq := spotOfferingForAZ_requirements hval
      exact spotRequirements_ne_onDemand az z2 (hreq.symm.trans hiso)
    · obtain ⟨p, az, hodp, hp0, haz, ho2⟩ := odOfferings_mem hod2
      rw [hod] at hodp
      injection hodp with h00
      exact hp0 h00.symm

/-- C10 witness: one zero-priced spot entry for `zA` and a pricing response
extracting `0`: no spot offering for `zA` and no on-demand offerings at all. -/
theorem truthy_price_gate_witness :
    lookupAZ (get_spot_prices (Except.ok [⟨some "zA", 0⟩])) (some "zA") = some ⟨0, true⟩ ∧
    get_on_demand_price zeroPricing = some 0 ∧
    ((buildOfferings ["zA"] (get_spot_prices (Except.ok [⟨some "zA", 0⟩]))
        (get_on_demand_price zeroPricing)).filter
        (fun o => decide (isSpotOfferingFor o "zA"))) = [] ∧
    (∀ o ∈ buildOfferings ["zA"] (get_spot_prices (Except.ok [⟨some "zA", 0⟩]))
        (get_on_demand_price zeroPricing), ∀ z2, ¬ isOnDemandOfferingFor o z2) :=
  ⟨by decide, by decide,
    (truthy_price_gate ["zA"] [⟨some "zA", 0⟩] "zA" ⟨0, true⟩ zeroPricing).1 (by decide) rfl,
    (truthy_price_gate ["zA"] [⟨some "zA", 0⟩] "zA" ⟨0, true⟩ zeroPricing).2 (by decide)⟩

/-- C1 counterexample: the spot-price query returned one entry for zone `zA`
(price `0`), yet the built record contains zero spot offerings for `zA` —
not the exactly-one-at-the-minimum the claim requires. -/
theorem spot_offering_zero_price_cex :
    (zonePrices [⟨some "zA", 0⟩] "zA").length = 1 ∧
    (process_instance_type "m5.large" ["zA"] sampleDets (Except.ok [⟨some "zA", 0⟩])
        (Except.ok [])).map
      (fun r => (r.offerings.filter (fun o => decide (isSpotOfferingFor o "zA"))).length) =
      some 0 :=
  ⟨rfl, rfl⟩

/-- C1 (amended): for every zone of the (duplicate-free) zone list, if the
spot-price query returned at least one entry for the zone and the minimum
observed price is nonzero, the record contains exactly one spot offering for
the zone, priced at that minimum; if no entry was returned, or the minimum is
zero (a falsy price in the source), the record contains no spot offering for
the zone. -/
theorem spot_offering_minimum_per_zone (it : String) (all_azs : List String)
    (dets : List InstanceInfo) (hist : List SpotEntry)
    (pr : Except String (List PriceProduct)) (rec : InstanceRecord) (z : String)
    (hrec : process_instance_type it all_azs dets (Except.ok hist) pr = some rec)
    (hz : z ∈ all_azs) (hnd : all_azs.Nodup) :
    (∀ q, listMin (zonePrices hist z) = some q → q ≠ 0 →
      ((rec.offerings.filter (fun o => decide (isSpotOfferingFor o z))).length = 1 ∧
       ∀ o ∈ rec.offerings, isSpotOfferingFor o z → o.Price = q)) ∧
    (listMin (zonePrices hist z) = none →
      (rec.offerings.filter (fun o => decide (isSpotOfferingFor o z))).length = 0) ∧
    (listMin (zonePrices hist z) = some 0 →
      (rec.offerings.filter (fun o => decide (isSpotOfferingFor o z))).length = 0) := by
  have hoff := process_offerings hrec
  have hlook := lookup_spot_prices hist z
  refine ⟨?_, ?_, ?_⟩
  · intro q hq hq0
    have hlz : lookupAZ (get_spot_prices (Except.ok hist)) (some z) = some ⟨q, true⟩ := by
      rw [hlook, hq]
      rfl
    have hsp : spotOfferingForAZ (get_spot_prices (Except.ok hist)) z =
        some ⟨q, true, spotRequirements z⟩ := by
      rw [spotOfferingForAZ_eq_some hlz]
      simp [hq0]
    constructor
    · rw [hoff, buildOfferings_spot_filter all_azs _ _ z hz hnd, hsp]
      rfl
    · intro o ho hiso
      have hmem : o ∈ rec.offerings.filter (fun o => decide (isSpotOfferingFor o z)) :=
        List.mem_filter.mpr ⟨ho, by simpa using hiso⟩
      rw [hoff, buildOfferings_spot_filter all_azs _ _ z hz hnd, hsp] at hmem
      have ho2 : o = ⟨q, true, spotRequirements z⟩ := by simpa using hmem
      rw [ho2]
  · intro hq
    have hlz : lookupAZ (get_spot_prices (Except.ok hist)) (some z) = none := by
      rw [hlook, hq]
      rfl
    rw [hoff, buildOfferings_spot_filter all_azs _ _ z hz hnd,
      spotOfferingForAZ_eq_none hlz]
    rfl
  · intro hq
    have hlz : lookupAZ (get_spot_prices (Except.ok hist)) (some z) = some ⟨0, true⟩ := by
      rw [hlook, hq]
      rfl
    have hsp : spotOfferingForAZ (get_spot_prices (Except.ok hist)) z = none := by
      rw [spotOfferingForAZ_eq_some hlz]
      simp
    rw [hoff, buildOfferings_spot_filter all_azs _ _ z hz hnd, hsp]
    rfl

/-- C1 witness: two entries for `zA` (prices 3 and 2) produce exactly one spot
offering for `zA`, priced at the minimum 2. -/
theorem spot_offering_minimum_per_zone_witness :
    process_instance_type "m5.large" ["zA"] sampleDets (Except.ok sampleHist)
      (Except.ok []) = some sampleSpotRec ∧
    listMin (zonePrices sampleHist "zA") = some 2 ∧
    ((sampleSpotRec.offerings.filter (fun o => decide (isSpotOfferingFor o "zA"))).length = 1 ∧
     ∀ o ∈ sampleSpotRec.offerings, isSpotOfferingFor o "zA" → o.Price = 2) :=
  ⟨rfl, rfl,
    (spot_offering_minimum_per_zone "m5.large" ["zA"] sampleDets sampleHist (Except.ok [])
        sampleSpotRec "zA" rfl (by simp) (by simp)).1 2 rfl (by norm_num)⟩

/-- C2 counterexample: an on-demand price is found (the extraction yields `0`
from a dimension without a `USD` key) and the zone list has one zone, yet
zero on-demand offerings are emitted instead of one per zone. -/
theorem on_demand_zero_price_cex :
    get_on_demand_price zeroPricing = some 0 ∧
    (["zA"] : List String).length = 1 ∧
    (process_instance_type "m5.large" ["zA"] sampleDets (Except.ok []) zeroPricing).map
      (fun r => (r.offerings.filter (fun o => decide (isOnDemandOfferingFor o "zA"))).length) =
      some 0 :=
  ⟨rfl, rfl, rfl⟩

/-- C2 (amended): if a nonzero on-demand price is found, exactly one on-demand
offering is emitted per zone of the (duplicate-free) zone list, each carrying
that same price and `Available = true`; if no price is found — or the found
price is `0`, which is falsy in the source — no on-demand offering is
emitted. -/
theorem on_demand_offerings_per_zone (it : String) (all_azs : List String)
    (dets : List InstanceInfo) (spotR : Except String (List SpotEntry))
    (pr : Except String (List PriceProduct)) (rec : InstanceRecord) (z : String)
    (hrec : process_instance_type it all_azs dets spotR pr = some rec)
    (hz : z ∈ all_azs) (hnd : all_azs.Nodup) :
    (∀ p, get_on_demand_price pr = some p → p ≠ 0 →
      ((rec.offerings.filter (fun o => decide (isOnDemandOfferingFor o z))).length = 1 ∧
       ∀ o ∈ rec.offerings, isOnDemandOfferingFor o z → o.Price = p ∧ o.Available = true)) ∧
    (get_on_demand_price pr = none →
      (rec.offerings.filter (fun o => decide (isOnDemandOfferingFor o z))).length = 0) ∧
    (get_on_demand_price pr = some 0 →
      (rec.offerings.filter (fun o => decide (isOnDemandOfferingFor o z))).length = 0) := by
  have hoff := process_offerings hrec
  refine ⟨?_, ?_, ?_⟩
  · intro p hp hp0
    constructor
    · rw [hoff, hp, buildOfferings_od_filter_some all_azs _ p z hp0 hz hnd]
      rfl
    · intro o ho hiso
      have hmem : o ∈ rec.offerings.filter (fun o => decide (isOnDemandOfferingFor o z)) :=
        List.mem_filter.mpr ⟨ho, by simpa using hiso⟩
      rw [hoff, hp, buildOfferings_od_filter_some all_azs _ p z hp0 hz hnd] at hmem
      have ho2 : o = ⟨p, true, onDemandRequirements z⟩ := by simpa using hmem
      rw [ho2]
      exact ⟨rfl, rfl⟩
  · intro hp
    rw [hoff, hp, buildOfferings_od_filter_none]
    rfl
  · intro hp
    rw [hoff, hp, buildOfferings_od_filter_zero]
    rfl

/-- C2 witness: a pricing response extracting `3` yields exactly one on-demand
offering for the single zone `zA`, priced `3` and available. -/
theorem on_demand_offerings_per_zone_witness :
    process_instance_type "m5.large" ["zA"] sampleDets (Except.ok []) samplePricing =
      some sampleOdRec ∧
    get_on_demand_price samplePricing = some 3 ∧
    ((sampleOdRec.offerings.filter (fun o => decide (isOnDemandOfferingFor o "zA"))).length = 1 ∧
     ∀ o ∈ sampleOdRec.offerings, isOnDemandOfferingFor o "zA" →
       o.Price = 3 ∧ o.Available = true) :=
  ⟨rfl, rfl,
    (on_demand_offerings_per_zone "m5.large" ["zA"] sampleDets (Except.ok []) samplePricing
        sampleOdRec "zA" rfl (by simp) (by simp)).1 3 rfl (by norm_num)⟩

/-- C3 counterexample: an instance type whose spot-price query failed is NOT
omitted — its record (built from the successful hardware lookup, with an
empty spot-price map) appears in the collected results. -/
theorem spot_failure_included_cex :
    get_spot_prices failedSpot = [] ∧
    (collectResults ["m5.large"] spotFailOutcome).map InstanceRecord.name = ["m5.large"] :=
  ⟨rfl, rfl⟩

/-- C3 (amended): a failed spot-price query degrades to an empty spot-price
map; as long as the hardware lookup succeeded the instance type still yields
a record — with no spot offerings — and that record appears in the collected
results.  (Only a hardware-lookup failure or an uncaught exception omits the
instance type.) -/
theorem spot_failure_nonfatal (it : String) (azs : List String) (dets : List InstanceInfo)
    (e : String) (pr : Except String (List PriceProduct)) (d : InstanceDetails)
    (order : List String) (outcome : String → EnrichOutcome)
    (hdet : get_instance_details dets = some d)
    (hout : outcome it = .ok (process_instance_type it azs dets (Except.error e) pr))
    (hit : it ∈ order) :
    get_spot_prices (Except.error e) = [] ∧
    ∃ rec, process_instance_type it azs dets (Except.error e) pr = some rec ∧
      (∀ o ∈ rec.offerings, ∀ z, ¬ isSpotOfferingFor o z) ∧
      rec ∈ collectResults order outcome := by
  refine ⟨rfl, ?_⟩
  have hproc : process_instance_type it azs dets (Except.error e) pr =
      some ⟨it, buildOfferings azs (get_spot_prices (Except.error e)) (get_on_demand_price pr),
        d.architecture, d.operatingSystems, d.resources⟩ := by
    unfold process_instance_type
    rw [hdet]
  refine ⟨_, hproc, ?_, ?_⟩
  · intro o ho z hiso
    have ho2 : o ∈ List.filterMap (spotOfferingForAZ []) azs ++
        odOfferings azs (get_on_demand_price pr) := ho
    rcases List.mem_append.mp ho2 with hsp2 | hod2
    · obtain ⟨az, haz, hval⟩ := List.mem_filterMap.mp hsp2
      have hn : spotOfferingForAZ ([] : List (Option String × SpotInfo)) az = none :=
        spotOfferingForAZ_eq_none rfl
      rw [hn] at hval
      exact absurd hval (by simp)
    · obtain ⟨p, az, hodp, hp0, haz, ho3⟩ := odOfferings_mem hod2
      rw [ho3] at hiso
      exact spotRequirements_ne_onDemand z az (id hiso.symm)
  · refine List.mem_filterMap.mpr ⟨it, hit, ?_⟩
    rw [hout, hproc]

/-- C3 witness: a one-instance batch whose spot query failed still collects
the record of the instance. -/
theorem spot_failure_nonfatal_witness :
    get_instance_details sampleDets = some sampleDetails ∧
    spotFailOutcome "m5.large" =
      .ok (process_instance_type "m5.large" ["zA"] sampleDets
        (Except.error "spot query failed") (Except.ok [])) ∧
    (get_spot_prices (Except.error "spot query failed") = [] ∧
     ∃ rec, process_instance_type "m5.large" ["zA"] sampleDets
         (Except.error "spot query failed") (Except.ok []) = some rec ∧
       (∀ o ∈ rec.offerings, ∀ z, ¬ isSpotOfferingFor o z) ∧
       rec ∈ collectResults ["m5.large"] spotFailOutcome) :=
  ⟨rfl, rfl,
    spot_failure_nonfatal "m5.large" ["zA"] sampleDets "spot query failed" (Except.ok [])
      sampleDetails ["m5.large"] spotFailOutcome rfl rfl (by simp)⟩
